import Mathlib

/-!
Verification development for the variational-Bayes approximate-inference
solvers of prml/approximate_inference.py:

  VariationalGauss1D            (Gaussian1DSolver of the spec)
  VariationalGaussianMixture    (GaussianMixtureSolver of the spec)
  VariationalLogisticRegression (LogisticRegressionSolver of the spec)

The Python floats are modelled as exact arithmetic: rational numbers where
the code is pure field arithmetic and comparisons, and real numbers where
the code genuinely uses transcendental functions (exp, the Gamma function,
pi, real powers).  External numeric primitives that the code consumes as
black boxes (scipy digamma, the safe log from prml.utils.util, numpy
linalg inv inside the mixture iteration) appear as function parameters of
the model.  Fallible operations (a float division 0/0 producing NaN, a
Python read of a never-assigned loop local raising at the end of fit) are
modelled with Option: none stands for the invalid outcome.  Matrices are
lists of row lists.
-/

/-! ## Generic vector and matrix helpers -/

def vSub {α : Type} [Field α] (u v : List α) : List α :=
  List.zipWith (fun a b => a - b) u v

def vDot {α : Type} [Field α] (u v : List α) : α :=
  (List.zipWith (fun a b => a * b) u v).sum

def mVec {α : Type} [Field α] (A : List (List α)) (x : List α) : List α :=
  A.map (fun row => vDot row x)

/-- The scalar x^T A x, the mahalanobis-style quadratic form of the code
(X.reshape(-1,1,D) @ A @ X.reshape(-1,D,1) per sample). -/
def quadForm {α : Type} [Field α] (x : List α) (A : List (List α)) : α :=
  vDot x (mVec A x)

def vOuter {α : Type} [Field α] (u v : List α) : List (List α) :=
  u.map (fun a => v.map (fun b => a * b))

def mScale {α : Type} [Field α] (c : α) (A : List (List α)) : List (List α) :=
  A.map (fun row => row.map (fun x => c * x))

def mDiv {α : Type} [Field α] (A : List (List α)) (c : α) : List (List α) :=
  A.map (fun row => row.map (fun x => x / c))

def mAdd {α : Type} [Field α] (A B : List (List α)) : List (List α) :=
  List.zipWith (fun r s => List.zipWith (fun a b => a + b) r s) A B

/-- Column sums of a matrix, numpy sum(axis = 0). -/
def colSum {α : Type} [Field α] : List (List α) → List α
  | [] => []
  | [r] => r
  | r :: rest => List.zipWith (fun a b => a + b) r (colSum rest)

def transposeL {α : Type} : List (List α) → List (List α)
  | [] => []
  | [r] => r.map (fun a => [a])
  | r :: rest => List.zipWith (fun a col => a :: col) r (transposeL rest)

def sumMats {α : Type} [Field α] : List (List (List α)) → List (List α)
  | [] => []
  | [A] => A
  | A :: rest => mAdd A (sumMats rest)

def zipWith3 {α β γ δ : Type} (f : α → β → γ → δ) : List α → List β → List γ → List δ
  | a :: as, b :: bs, c :: cs => f a b c :: zipWith3 f as bs cs
  | _, _, _ => []

/-- Determinant of a square list matrix by Laplace expansion along the
first row, driven by a fuel argument equal to the number of rows.  This is
the mathematical value that the black box np.linalg.det returns. -/
def detAux {α : Type} [Field α] : ℕ → List (List α) → α
  | _, [] => 1
  | 0, _ => 0
  | n + 1, r :: rest =>
    ((List.range r.length).map
      (fun j => (-1 : α) ^ j * r.getD j 0 *
        detAux n (rest.map (fun row => row.eraseIdx j)))).sum

def detL {α : Type} [Field α] (m : List (List α)) : α :=
  detAux m.length m

/-! ## Generic loop skeletons

breakLoop models the loop shape shared by VariationalGauss1D.fit and
VariationalLogisticRegression.fit: run the body, then compare the old and
the new iterate; if the convergence test passes, keep the new iterate and
break, else continue.  It returns the final iterate, the number of
executed iterations, and whether the break fired.  forLoop models the
plain loop of VariationalGaussianMixture.fit, which has no convergence
test at all. -/

def breakLoop {σ : Type} (g : σ → σ) (c : σ → σ → Bool) : ℕ → σ → σ × ℕ × Bool
  | 0, s => (s, 0, false)
  | n + 1, s =>
    let s' := g s
    if c s s' then (s', 1, true)
    else
      let r := breakLoop g c n s'
      (r.1, r.2.1 + 1, r.2.2)

def forLoop {σ : Type} (g : σ → σ) : ℕ → σ → σ
  | 0, s => s
  | n + 1, s => forLoop g n (g s)

/-! ## VariationalGauss1D (lines 45-82)

State of the coordinate-ascent iteration.  muN, lamN, Etau are assigned
before the loop; the loop locals a_N and b_N do not exist until the first
iteration has run, which is modelled with Option (none = unbound). -/

structure G1State where
  muN : ℚ
  lamN : ℚ
  Etau : ℚ
  aN : Option ℚ
  bN : Option ℚ

/-- One iteration of the fit loop of VariationalGauss1D (lines 62-69):
a0, b0, mu0, lam0 are the prior hyperparameters (self.a, self.b, self.mu,
self.lamda), N = len(X), Xsum = X.sum(), X2sum = np.sum(X**2). -/
def g1Step (a0 b0 mu0 lam0 N Xsum X2sum : ℚ) (s : G1State) : G1State :=
  let Emu := s.muN
  let Emu2 := s.muN ^ 2 + 1 / ((s.lamN + N) * s.Etau)
  let aN := a0 + (N + 1) / 2
  let bN := b0 + (1 / 2) *
    (X2sum - 2 * Emu * Xsum + N * Emu2 + lam0 * (Emu2 - 2 * Emu * mu0 + mu0 ^ 2))
  let Etau := aN / bN
  { muN := (lam0 * mu0 + Xsum) / (lam0 + N)
    lamN := (lam0 + N) * Etau
    Etau := Etau
    aN := some aN
    bN := some bN }

/-- The convergence test of line 71, ((new_lam_N - lam_N)**2 +
(new_mu_N - mu_N)**2)**0.5 < self.threshold, stated on the squares.
g1ConvCheck_eq_sqrt below shows this agrees with the square-root
formulation of the source for nonnegative thresholds. -/
def g1ConvCheck (thr : ℚ) (s s' : G1State) : Bool :=
  decide ((s'.lamN - s.lamN) ^ 2 + (s'.muN - s.muN) ^ 2 < thr ^ 2)

/-- The state assigned before the loop (lines 57-59). -/
def g1Init (mu0 lam0 N Xsum : ℚ) (initTau : ℚ) : G1State :=
  { muN := (lam0 * mu0 + Xsum) / (lam0 + N)
    lamN := (lam0 + N) * initTau
    Etau := initTau
    aN := none
    bN := none }

/-- The final stores of lines 79-82.  Reading a_N or b_N when the loop body
never ran is Python's unbound-local failure, modelled as none.  (self.mu
and self.lamda are assigned just before that failure.) -/
def g1Store (s : G1State) : Option (ℚ × ℚ × ℚ × ℚ) :=
  match s.aN, s.bN with
  | some a, some b => some (s.muN, s.lamN, a, b)
  | _, _ => none

/-- The loop body of VariationalGauss1D.fit on data X: g1Step with
N = len(X), Xsum = X.sum(), X2sum = np.sum(X**2) filled in. -/
def g1Body (a0 b0 mu0 lam0 : ℚ) (X : List ℚ) : G1State → G1State :=
  g1Step a0 b0 mu0 lam0 (X.length : ℚ) X.sum (X.map (fun x => x ^ 2)).sum

/-- The pre-loop state of VariationalGauss1D.fit on data X. -/
def g1Start (mu0 lam0 : ℚ) (X : List ℚ) (initTau : ℚ) : G1State :=
  g1Init mu0 lam0 (X.length : ℚ) X.sum initTau

/-- VariationalGauss1D.fit (lines 45-82) on data X with initial precision
guess initTau.  Returns the stored (mu, lamda, a, b) (none when fit raises
on the never-assigned loop local), the number of executed iterations, and
whether the convergence break fired. -/
def g1Fit (a0 b0 mu0 lam0 thr : ℚ) (maxIter : ℕ) (X : List ℚ) (initTau : ℚ) :
    Option (ℚ × ℚ × ℚ × ℚ) × ℕ × Bool :=
  let r := breakLoop (g1Body a0 b0 mu0 lam0 X) (g1ConvCheck thr)
    maxIter (g1Start mu0 lam0 X initTau)
  (g1Store r.1, r.2)

/-- The positivity invariant of the Normal-Gamma posterior state: the
propagated expected precision and lamda iterate are positive, and the
Gamma parameters, once assigned, are positive. -/
def g1Pos (s : G1State) : Prop :=
  0 < s.Etau ∧ 0 < s.lamN ∧ (∀ a, s.aN = some a → 0 < a) ∧ ∀ b, s.bN = some b → 0 < b

/-! ## VariationalLogisticRegression._lamda and the sigmoid -/

/-- Modelled from the spec: sigmoid comes from prml.utils.util, which is
not among the source files; section 6 of the spec fixes its contract as
sigmoid(x) = 1/(1+e^(-x)). -/
noncomputable def sigmoid (x : ℝ) : ℝ := 1 / (1 + Real.exp (-x))

/-- VariationalLogisticRegression._lamda (lines 318-319), elementwise on
one entry of xi: (sigmoid(xi) - 0.5)/(2*xi).  The code has no special case
for xi == 0; there the float expression is 0.0/0.0 = NaN, modelled as
none. -/
noncomputable def lamda (xi : ℝ) : Option ℝ :=
  if xi = 0 then none else some ((sigmoid xi - 1 / 2) / (2 * xi))

/-! ## VariationalGaussianMixture._student and prob_density (lines 207-232) -/

/-- VariationalGaussianMixture._student (lines 207-212).  Returns the list
of per-sample values together with the array X after the call: the line
X -= mu is an in-place numpy subtraction, so the caller's array comes back
shifted by mu.  Note line 211 multiplies (1 + mahalanobis/nu) by the
exponent -D/2 - nu/2 instead of raising it to that power. -/
noncomputable def student (X : List (List ℝ)) (D : ℕ) (mu : List ℝ)
    (L : List (List ℝ)) (nu : ℝ) : List ℝ × List (List ℝ) :=
  let normConst := Real.Gamma ((D : ℝ) / 2 + nu / 2) / Real.Gamma (nu / 2) *
    detL L ^ ((1 : ℝ) / 2) / (Real.pi * nu) ^ ((D : ℝ) / 2)
  let X' := X.map (fun row => vSub row mu)
  let maha := X'.map (fun row => quadForm row L)
  let st := maha.map (fun d => (1 + d / nu) * (-(D : ℝ) / 2 - nu / 2))
  (st.map (fun v => normConst * v), X')

/-- The standard multivariate Student-t density exactly as the spec words
it: normalizing constant Gamma(D/2+nu/2)/Gamma(nu/2) * det(L)^(1/2) /
(pi*nu)^(D/2) multiplied by the kernel (1+mahalanobis/nu)^(-(D+nu)/2). -/
noncomputable def studentSpecForm (D : ℕ) (L : List (List ℝ)) (nu maha : ℝ) : ℝ :=
  Real.Gamma ((D : ℝ) / 2 + nu / 2) / Real.Gamma (nu / 2) *
    detL L ^ ((1 : ℝ) / 2) / (Real.pi * nu) ^ ((D : ℝ) / 2) *
    (1 + maha / nu) ^ (-((D : ℝ) + nu) / 2)

/-- VariationalGaussianMixture.prob_density (lines 214-232) on a fitted
state (alpha, beta, nu, m_k, W_k, K).  Returns the probability list and
the caller's array X after the call; each loop round passes the current X
to _student, which hands back the shifted array. -/
noncomputable def prob_density (K : ℕ) (alpha beta nu : List ℝ)
    (mk : List (List ℝ)) (Wk : List (List (List ℝ))) (X : List (List ℝ)) :
    List ℝ × List (List ℝ) :=
  let D := (X.headD []).length
  let go := fun (acc : List ℝ × List (List ℝ)) (i : ℕ) =>
    let L := mScale ((nu.getD i 0 + 1 - (D : ℝ)) * beta.getD i 0 / (1 + beta.getD i 0))
      (Wk.getD i [])
    let r := student acc.2 D (mk.getD i []) L (nu.getD i 0 + 1 - (D : ℝ))
    (List.zipWith (fun p v => p + alpha.getD i 0 * v) acc.1 r.1, r.2)
  let out := (List.range K).foldl go (List.replicate X.length 0, X)
  (out.1.map (fun p => p / alpha.sum), out.2)

/-! ## VariationalGaussianMixture.fit: the shape checks (lines 143-162) -/

def eyeQ (M : ℕ) : List (List ℚ) :=
  (List.range M).map (fun i => (List.range M).map (fun j => if i = j then (1 : ℚ) else 0))

/-- Lines 152-155: when self.m is None it is ASSIGNED np.zeros(M) (a state
mutation); when it is set with the wrong length, fit raises.  Returns the
value of self.m after the block and the raised error, if any. -/
def gmmCheckM (m0 : Option (List ℚ)) (M : ℕ) : Option (List ℚ) × Option String :=
  match m0 with
  | none => (some (List.replicate M 0), none)
  | some mv =>
    if mv.length ≠ M then (some mv, some "X.shape[1] should be equal to m.shape[0]")
    else (some mv, none)

/-- Lines 157-162: self.W_inv is assigned eye(M) when self.W is None, or
inv(self.W) when the length matches; a length mismatch raises before
W_inv is assigned.  inv is the black box np.linalg.inv. -/
def gmmCheckW (inv : List (List ℚ) → List (List ℚ)) (W0 : Option (List (List ℚ)))
    (M : ℕ) : Option (List (List ℚ)) × Option String :=
  match W0 with
  | none => (some (eyeQ M), none)
  | some w =>
    if w.length ≠ M then (none, some "X.shape[1] should be equal to W.shape[0]")
    else (some (inv w), none)

/-- The validation prelude of VariationalGaussianMixture.fit in source
order: the m block runs first and its exception aborts the call before the
W block runs.  Returns (self.m after the call, self.W_inv after the call
where none = never assigned, the raised error if any). -/
def gmmPrelude (inv : List (List ℚ) → List (List ℚ)) (m0 : Option (List ℚ))
    (W0 : Option (List (List ℚ))) (M : ℕ) :
    Option (List ℚ) × Option (List (List ℚ)) × Option String :=
  let mr := gmmCheckM m0 M
  match mr.2 with
  | some e => (mr.1, none, some e)
  | none =>
    let wr := gmmCheckW inv W0 M
    (mr.1, wr.1, wr.2)

/-- Outcome of a whole VariationalGaussianMixture.fit call with the loop
body abstracted: the fields self.m and self.W_inv after the call, the
raised error if any, the state after the loop (none when the loop was
never entered), and the number of loop rounds that ran. -/
structure GMMFitOutcome (σ : Type) where
  m : Option (List ℚ)
  wInv : Option (List (List ℚ))
  err : Option String
  finalState : Option σ
  iters : ℕ

/-- VariationalGaussianMixture.fit with the loop body abstracted as a
state transformer: the prelude checks run first, and an error there
propagates before any iteration runs. -/
def gmmFitChecked {σ : Type} (body : σ → σ) (inv : List (List ℚ) → List (List ℚ))
    (m0 : Option (List ℚ)) (W0 : Option (List (List ℚ))) (M : ℕ) (nIter : ℕ)
    (s0 : σ) : GMMFitOutcome σ :=
  let p := gmmPrelude inv m0 W0 M
  match p.2.2 with
  | some e => ⟨p.1, p.2.1, some e, none, 0⟩
  | none => ⟨p.1, p.2.1, none, some (forLoop body nIter s0), nIter⟩

/-! ## VariationalGaussianMixture.fit: the iteration (lines 164-205) -/

/-- E_pi of line 180: (self.alpha + N_k)/(self.K*self.alpha + N),
elementwise over the prior alpha vector and the effective counts. -/
def EpiQ (K : ℕ) (N : ℚ) (alphaP Nk : List ℚ) : List ℚ :=
  List.zipWith (fun a nk => (a + nk) / ((K : ℚ) * a + N)) alphaP Nk

/-- The boolean keep-mask of line 182, reduce = E_pi >= threshold. -/
def pruneMaskQ (Epi : List ℚ) (thr : ℚ) : List Bool :=
  Epi.map (fun e => if thr ≤ e then true else false)

/-- numpy boolean-mask indexing arr[reduce]: keep the entries at the true
positions of the mask. -/
def maskFilter {β : Type} (mask : List Bool) (xs : List β) : List β :=
  (List.zip mask xs).filterMap (fun p => if p.1 then some p.2 else none)

/-- reduce.astype(int).sum() of line 189: the number of true entries. -/
def countTrue (mask : List Bool) : ℕ :=
  (mask.filter (fun b => b)).length

/-- The exponentiate-and-row-normalize E step of lines 197-198:
E_z = exp(pho); E_z /= E_z.sum(axis=1,keepdims=True).  Generic in the
field and in the exponential so that the same definition serves the exact
real-number reading (ex = Real.exp) and the rational test model. -/
def EstepNormalize {α : Type} [Field α] (ex : α → α) (pho : List (List α)) :
    List (List α) :=
  pho.map (fun row => (row.map ex).map (fun e => e / (row.map ex).sum))

/-- The mutable state of the fit loop: self.K, self.alpha (the Dirichlet
prior, filtered in place by pruning), the responsibility E_z, and the
round locals alpha, beta, m_k, W_k, nu that the final stores of lines
200-205 read. -/
structure GMMIter where
  K : ℕ
  alphaP : List ℚ
  Ez : List (List ℚ)
  alpha : List ℚ
  beta : List ℚ
  m_k : List (List ℚ)
  W_k : List (List (List ℚ))
  nu : List ℚ

/-- One round of the fit loop of VariationalGaussianMixture (lines
164-198) over exact rationals.  The external numeric primitives are
parameters: dg is scipy digamma, lg is _log from prml.utils.util, ex is
np.exp, inv is np.linalg.inv, det is np.linalg.det, piQ stands for np.pi.
beta0, m0, Winv, nu0 are self.beta, self.m, self.W_inv, self.nu. -/
def gmmRound (dg lg ex : ℚ → ℚ) (inv : List (List ℚ) → List (List ℚ))
    (det : List (List ℚ) → ℚ) (piQ : ℚ) (X : List (List ℚ)) (beta0 : ℚ)
    (m0 : List ℚ) (Winv : List (List ℚ)) (nu0 : ℚ) (reduceC : Bool) (thr : ℚ)
    (s : GMMIter) : GMMIter :=
  let N : ℚ := X.length
  let M : ℕ := (X.headD []).length
  let Nk := colSum s.Ez
  let EzT := transposeL s.Ez
  let xkbar := List.zipWith
    (fun col nk =>
      (colSum (List.zipWith (fun w row => row.map (fun a => w * a)) col X)).map
        (fun a => a / nk)) EzT Nk
  let Sk := zipWith3
    (fun col xb nk =>
      mDiv (sumMats (List.zipWith
        (fun w xn => mScale w (vOuter (vSub xn xb) (vSub xn xb))) col X)) nk)
    EzT xkbar Nk
  let alpha := List.zipWith (fun a nk => a + nk) s.alphaP Nk
  let beta := Nk.map (fun nk => beta0 + nk)
  let mk := zipWith3
    (fun nk xb b => List.zipWith (fun m x => (beta0 * m + nk * x) / b) m0 xb)
    Nk xkbar beta
  let Wk := zipWith3
    (fun nk sk xb =>
      inv (mAdd (mAdd Winv (mScale nk sk))
        (mScale (beta0 * nk / (beta0 + nk)) (vOuter (vSub xb m0) (vSub xb m0)))))
    Nk Sk xkbar
  let nu := Nk.map (fun nk => nu0 + nk)
  let Epi := EpiQ s.K N s.alphaP Nk
  let pr :=
    if reduceC then
      let mask := pruneMaskQ Epi thr
      (countTrue mask, maskFilter mask s.alphaP, maskFilter mask alpha,
        maskFilter mask beta, maskFilter mask mk, maskFilter mask Wk,
        maskFilter mask nu)
    else (s.K, s.alphaP, alpha, beta, mk, Wk, nu)
  let K' := pr.1
  let alphaP' := pr.2.1
  let alpha' := pr.2.2.1
  let beta' := pr.2.2.2.1
  let mk' := pr.2.2.2.2.1
  let Wk' := pr.2.2.2.2.2.1
  let nu' := pr.2.2.2.2.2.2
  let alphaSum := alpha'.sum
  let Elogpi := alpha'.map (fun a => dg a - dg alphaSum)
  let ELam := List.zipWith
    (fun nuk wk =>
      ((List.range M).map (fun i => dg ((nuk + 1 - ((i : ℚ) + 1)) / 2))).sum +
        (M : ℚ) * lg 2 + lg (det wk)) nu' Wk'
  let Einner := X.map (fun xn =>
    zipWith3 (fun b nuk mw => (M : ℚ) / b + nuk * quadForm (vSub xn mw.1) mw.2)
      beta' nu' (mk'.zip Wk'))
  let pho := Einner.map (fun row =>
    zipWith3 (fun ep el ei => ep + (1 / 2) * el - (M : ℚ) / 2 * lg (2 * piQ) - (1 / 2) * ei)
      Elogpi ELam row)
  let Ez' := EstepNormalize ex pho
  { K := K', alphaP := alphaP', Ez := Ez', alpha := alpha', beta := beta',
    m_k := mk', W_k := Wk', nu := nu' }

/-- The values stored by lines 200-205: self.r, self.alpha (now the
posterior), self.beta, self.m_k, self.W_k, self.nu, plus self.K. -/
structure GMMResult where
  r : List (List ℚ)
  K : ℕ
  alpha : List ℚ
  beta : List ℚ
  nu : List ℚ
  m_k : List (List ℚ)
  W_k : List (List (List ℚ))

/-- The fit loop of VariationalGaussianMixture followed by the final
stores, for a call that passed the shape checks; K0, alpha0, Ez0 are
self.K, the prior self.alpha, and the initial responsibility.  With
n_iter = 0 the stores of lines 201-205 read loop locals that were never
assigned and fit raises (none); otherwise the loop runs exactly nIter
rounds, with no convergence check anywhere. -/
def gmmFitQ (dg lg ex : ℚ → ℚ) (inv : List (List ℚ) → List (List ℚ))
    (det : List (List ℚ) → ℚ) (piQ : ℚ) (X : List (List ℚ)) (beta0 : ℚ)
    (m0 : List ℚ) (Winv : List (List ℚ)) (nu0 : ℚ) (reduceC : Bool) (thr : ℚ)
    (K0 : ℕ) (alpha0 : List ℚ) (Ez0 : List (List ℚ)) (nIter : ℕ) :
    Option GMMResult :=
  let s0 : GMMIter := ⟨K0, alpha0, Ez0, [], [], [], [], []⟩
  if nIter = 0 then none
  else
    let sF := forLoop (gmmRound dg lg ex inv det piQ X beta0 m0 Winv nu0 reduceC thr)
      nIter s0
    some ⟨sF.Ez, sF.K, sF.alpha, sF.beta, sF.nu, sF.m_k, sF.W_k⟩

/-! ## VariationalLogisticRegression.fit: the loop skeleton (lines 270-316)

The loop body (the E step building S and weight through np.linalg.inv and
the M step building new_xi, lines 299-308) is abstracted as a function
newXi from the current xi to the next xi; the loop structure, the
init_xi shape check, and the convergence test are modelled exactly. -/

/-- The quantity np.mean((xi - new_xi)**2) of line 310; the source compares its square
root with the threshold, modelled on the squares as for g1ConvCheck. -/
def logMeanSq (xs ys : List ℚ) : ℚ :=
  (List.zipWith (fun a b => (a - b) ^ 2) xs ys).sum / (xs.length : ℚ)

def logConvCheck (thr : ℚ) (xi new : List ℚ) : Bool :=
  decide (logMeanSq xi new < thr ^ 2)

/-- Outcome of VariationalLogisticRegression.fit: raised error if any,
the pair (self.a, self.b) (none = never assigned), the stored self.xi,
and the number of executed iterations. -/
structure LogFitOutcome where
  err : Option String
  ab : Option (ℚ × ℚ)
  xi : Option (List ℚ)
  iters : ℕ

/-- VariationalLogisticRegression.fit (lines 270-316): the init_xi length
check of lines 286-287 runs before self.a and self.b are assigned and
before any iteration; randXi stands for the np.random.randn draw used
when init_xi is None. -/
def logisticFit (newXi : List ℚ → List ℚ) (thr : ℚ) (maxIter : ℕ)
    (initXi : Option (List ℚ)) (randXi : List ℚ) (N : ℕ) (a0 b0 : ℚ) :
    LogFitOutcome :=
  match initXi with
  | some v =>
    if v.length ≠ N then
      ⟨some "init_xi.shape[0] should be equal to X.shape[0]", none, none, 0⟩
    else
      let r := breakLoop newXi (logConvCheck thr) maxIter v
      ⟨none, some (a0, b0), some r.1, r.2.1⟩
  | none =>
    let r := breakLoop newXi (logConvCheck thr) maxIter randXi
    ⟨none, some (a0, b0), some r.1, r.2.1⟩

/-! # Theorems -/

/-! ## Loop lemmas -/

theorem forLoop_eq_iterate {σ : Type} (g : σ → σ) :
    ∀ (n : ℕ) (s : σ), forLoop g n s = g^[n] s := by
  intro n
  induction n with
  | zero => intro s; rfl
  | succ m ih =>
    intro s
    rw [forLoop, ih, Function.iterate_succ_apply]

theorem breakLoop_of_never {σ : Type} (g : σ → σ) (c : σ → σ → Bool) :
    ∀ (n : ℕ) (s : σ), (∀ k < n, c (g^[k] s) (g (g^[k] s)) = false) →
      breakLoop g c n s = (g^[n] s, n, false) := by
  intro n
  induction n with
  | zero => intro s _; rfl
  | succ m ih =>
    intro s h
    have h0 : c s (g s) = false := by
      have := h 0 (Nat.succ_pos m)
      simpa using this
    have hrest : ∀ k < m, c (g^[k] (g s)) (g (g^[k] (g s))) = false := by
      intro k hk
      have := h (k + 1) (Nat.succ_lt_succ hk)
      simpa [Function.iterate_succ_apply] using this
    rw [breakLoop]
    simp only [h0, Bool.false_eq_true, if_false, ih (g s) hrest]
    simp [Function.iterate_succ_apply]

theorem breakLoop_step_false {σ : Type} (g : σ → σ) (c : σ → σ → Bool)
    (n m : ℕ) (s s' : σ) (hn : n = m + 1) (hg : g s = s') (hc : c s s' = false) :
    breakLoop g c n s =
      ((breakLoop g c m s').1, (breakLoop g c m s').2.1 + 1, (breakLoop g c m s').2.2) := by
  subst hn
  subst hg
  rw [breakLoop]
  simp [hc]

theorem breakLoop_step_true {σ : Type} (g : σ → σ) (c : σ → σ → Bool)
    (n m : ℕ) (s s' : σ) (hn : n = m + 1) (hg : g s = s') (hc : c s s' = true) :
    breakLoop g c n s = (s', 1, true) := by
  subst hn
  subst hg
  rw [breakLoop]
  simp [hc]

/-- For a nonnegative threshold, comparing the squared distance with the
squared threshold is the same test as comparing the Euclidean distance
with the threshold, so g1ConvCheck is a faithful rendering of line 71. -/
theorem g1ConvCheck_eq_sqrt (thr : ℚ) (hthr : 0 ≤ thr) (s s' : G1State) :
    g1ConvCheck thr s s' = true ↔
      Real.sqrt (((s'.lamN : ℝ) - s.lamN) ^ 2 + ((s'.muN : ℝ) - s.muN) ^ 2)
        < (thr : ℝ) := by
  rw [g1ConvCheck, decide_eq_true_iff]
  rcases lt_or_eq_of_le hthr with hpos | hzero
  · rw [Real.sqrt_lt' (by exact_mod_cast hpos)]
    constructor
    · intro h; exact_mod_cast h
    · intro h; exact_mod_cast h
  · constructor
    · intro h
      exfalso
      have h2 : (0 : ℚ) ≤ (s'.lamN - s.lamN) ^ 2 + (s'.muN - s.muN) ^ 2 := by positivity
      rw [← hzero] at h
      simp only [ne_eq, OfNat.ofNat_ne_zero, not_false_eq_true, zero_pow] at h
      exact absurd (lt_of_le_of_lt h2 h) (lt_irrefl 0)
    · intro h
      exfalso
      have hnn : (0 : ℝ) ≤
          Real.sqrt (((s'.lamN : ℝ) - s.lamN) ^ 2 + ((s'.muN : ℝ) - s.muN) ^ 2) :=
        Real.sqrt_nonneg _
      rw [← hzero] at h
      push_cast at h
      exact absurd (lt_of_le_of_lt hnn h) (lt_irrefl 0)

/-! ## The local bound function (claim C3) -/

theorem sigmoid_neg (x : ℝ) : sigmoid (-x) = 1 - sigmoid x := by
  unfold sigmoid
  rw [neg_neg, Real.exp_neg]
  have h : Real.exp x ≠ 0 := (Real.exp_pos x).ne'
  have h1 : 1 + Real.exp x ≠ 0 := by positivity
  have h2 : 1 + (Real.exp x)⁻¹ ≠ 0 := by positivity
  field_simp
  ring

/-- Claim C3, counterexample.  The claim states that the local-bound
function returns the limit value 1/8 at xi = 0; in the code _lamda has no
special case and evaluates 0.0/0.0 there (NaN, modelled as none), so it is
not total and does not return 1/8. -/
theorem c3_lamda_at_zero_counterexample : lamda 0 = none ∧ lamda 0 ≠ some (1 / 8) := by
  constructor
  · simp [lamda]
  · simp [lamda]

/-- Claim C3, amended.  For every xi that is not 0 the local-bound
function Lamda equals (sigmoid(xi) - 0.5)/(2 xi), and it is symmetric,
Lamda(xi) = Lamda(-xi), for every xi; but at xi = 0 the code divides 0 by
0 instead of returning the limit value 1/8. -/
theorem c3_lamda_amended (xi : ℝ) :
    (xi ≠ 0 → lamda xi = some ((sigmoid xi - 1 / 2) / (2 * xi))) ∧
      lamda (-xi) = lamda xi := by
  constructor
  · intro h
    simp [lamda, h]
  · by_cases h : xi = 0
    · subst h
      simp [lamda]
    · have hne : -xi ≠ 0 := neg_ne_zero.mpr h
      simp only [lamda, if_neg hne, if_neg h, Option.some.injEq]
      rw [sigmoid_neg,
        show (1 : ℝ) - sigmoid xi - 1 / 2 = -(sigmoid xi - 1 / 2) by ring,
        show (2 : ℝ) * -xi = -(2 * xi) by ring, neg_div_neg_eq]

/-- Witness for c3_lamda_amended at xi = 1. -/
theorem c3_lamda_amended_witness :
    lamda 1 = some ((sigmoid 1 - 1 / 2) / (2 * 1)) ∧ lamda (-1) = lamda 1 :=
  ⟨(c3_lamda_amended 1).1 (by norm_num), (c3_lamda_amended 1).2⟩

/-! ## DimensionMismatch checks (claim C4) -/

/-- Claim C4, counterexample.  A fit call on 1-dimensional data with prior
mean unset and a 2-row prior scale matrix fails with the W DimensionMismatch
before any iteration, but the instance state HAS been mutated: self.m was
defaulted from None to np.zeros(1) before the W check raised. -/
theorem c4_prior_m_mutated_counterexample :
    (gmmFitChecked (fun s : Unit => s) id none (some [[1], [1]]) 1 5 ()).err ≠ none ∧
    (gmmFitChecked (fun s : Unit => s) id none (some [[1], [1]]) 1 5 ()).m = some [0] ∧
    some [(0 : ℚ)] ≠ (none : Option (List ℚ)) := by
  refine ⟨?_, ?_, by simp⟩ <;>
    simp [gmmFitChecked, gmmPrelude, gmmCheckM, gmmCheckW, List.replicate]

/-- Claim C4, amended.  Whenever a GaussianMixtureSolver fit call fails
with a DimensionMismatch, the error is raised before any iteration runs
(the loop state stays unset, zero rounds execute), self.W_inv is never
assigned, and a previously set prior mean m is unmutated --- but when m
was unset, fit has already defaulted it to the zero vector of length D
before the W-shape check raises.  The logistic init_xi mismatch is raised
before any iteration and before self.a and self.b are assigned. -/
theorem c4_dimension_mismatch_amended :
    (∀ (σ : Type) (body : σ → σ) (inv : List (List ℚ) → List (List ℚ))
      (m0 : Option (List ℚ)) (W0 : Option (List (List ℚ))) (M nIter : ℕ) (s0 : σ),
      (gmmFitChecked body inv m0 W0 M nIter s0).err ≠ none →
        (gmmFitChecked body inv m0 W0 M nIter s0).iters = 0 ∧
        (gmmFitChecked body inv m0 W0 M nIter s0).finalState = none ∧
        (gmmFitChecked body inv m0 W0 M nIter s0).wInv = none ∧
        (∀ v, m0 = some v → (gmmFitChecked body inv m0 W0 M nIter s0).m = some v) ∧
        (m0 = none →
          (gmmFitChecked body inv m0 W0 M nIter s0).m = some (List.replicate M 0))) ∧
    ∀ (newXi : List ℚ → List ℚ) (thr : ℚ) (maxIter : ℕ) (v randXi : List ℚ)
      (N : ℕ) (a0 b0 : ℚ), v.length ≠ N →
      logisticFit newXi thr maxIter (some v) randXi N a0 b0 =
        ⟨some "init_xi.shape[0] should be equal to X.shape[0]", none, none, 0⟩ := by
  constructor
  · intro σ body inv m0 W0 M nIter s0 herr
    cases m0 with
    | none =>
      cases W0 with
      | none => simp [gmmFitChecked, gmmPrelude, gmmCheckM, gmmCheckW] at herr
      | some w =>
        by_cases hw : w.length = M
        · simp [gmmFitChecked, gmmPrelude, gmmCheckM, gmmCheckW, hw] at herr
        · simp [gmmFitChecked, gmmPrelude, gmmCheckM, gmmCheckW, hw]
    | some mv =>
      by_cases hm : mv.length = M
      · cases W0 with
        | none => simp [gmmFitChecked, gmmPrelude, gmmCheckM, gmmCheckW, hm] at herr
        | some w =>
          by_cases hw : w.length = M
          · simp [gmmFitChecked, gmmPrelude, gmmCheckM, gmmCheckW, hm, hw] at herr
          · simp [gmmFitChecked, gmmPrelude, gmmCheckM, gmmCheckW, hm, hw]
      · simp [gmmFitChecked, gmmPrelude, gmmCheckM, gmmCheckW, hm]
  · intro newXi thr maxIter v randXi N a0 b0 hv
    simp [logisticFit, hv]

/-- Witness for c4_dimension_mismatch_amended: a prior mean of length 2
against 1-dimensional data, and an init_xi of length 2 against one
sample. -/
theorem c4_dimension_mismatch_amended_witness :
    ((gmmFitChecked (fun s : Unit => s) id (some [1, 2]) none 1 5 ()).iters = 0 ∧
      (gmmFitChecked (fun s : Unit => s) id (some [1, 2]) none 1 5 ()).finalState = none ∧
      (gmmFitChecked (fun s : Unit => s) id (some [1, 2]) none 1 5 ()).wInv = none ∧
      (∀ v, (some [1, 2] : Option (List ℚ)) = some v →
        (gmmFitChecked (fun s : Unit => s) id (some [1, 2]) none 1 5 ()).m = some v) ∧
      ((some [1, 2] : Option (List ℚ)) = none →
        (gmmFitChecked (fun s : Unit => s) id (some [1, 2]) none 1 5 ()).m =
          some (List.replicate 1 0))) ∧
    logisticFit id 0 3 (some [1, 2]) [] 1 0 0 =
      ⟨some "init_xi.shape[0] should be equal to X.shape[0]", none, none, 0⟩ :=
  ⟨c4_dimension_mismatch_amended.1 Unit (fun s => s) id (some [1, 2]) none 1 5 ()
    (by simp [gmmFitChecked, gmmPrelude, gmmCheckM]),
   c4_dimension_mismatch_amended.2 id 0 3 [1, 2] [] 1 0 0 (by simp)⟩

/-! ## Pruning invariant (claim C6) -/

theorem maskFilter_length {β : Type} :
    ∀ (mask : List Bool) (xs : List β), mask.length = xs.length →
      (maskFilter mask xs).length = countTrue mask := by
  intro mask
  induction mask with
  | nil => intro xs _; simp [maskFilter, countTrue]
  | cons b bs ih =>
    intro xs h
    cases xs with
    | nil => simp at h
    | cons x xs' =>
      have h' : bs.length = xs'.length := by simpa using h
      cases b
      · simpa [maskFilter, countTrue, List.filter_cons] using ih xs' h'
      · simpa [maskFilter, countTrue, List.filter_cons] using ih xs' h'

theorem countTrue_pruneMaskQ (Epi : List ℚ) (thr : ℚ) :
    countTrue (pruneMaskQ Epi thr) = Epi.countP (fun e => decide (thr ≤ e)) := by
  induction Epi with
  | nil => simp [countTrue, pruneMaskQ]
  | cons e l ih =>
    by_cases h : thr ≤ e
    · simp [countTrue, pruneMaskQ, List.filter_cons, List.countP_cons, h] at ih ⊢
      omega
    · simpa [countTrue, pruneMaskQ, List.filter_cons, List.countP_cons, h] using ih

/-- Claim C6.  After the pruning step of lines 181-189, self.K equals the
number of components whose E_pi = (alpha0_k+N_k)/(K*alpha0_k+N) of that
round is at least the prune threshold, and each of the six K-indexed
arrays that the code filters with the same mask (the prior alpha and the
posterior alpha, beta, m_k, W_k, nu) has exactly that length. -/
theorem c6_pruning_invariant (K : ℕ) (N thr : ℚ) (alphaP Nk alpha beta nu : List ℚ)
    (mk : List (List ℚ)) (Wk : List (List (List ℚ)))
    (hP : alphaP.length = K) (hN : Nk.length = K) (hA : alpha.length = K)
    (hB : beta.length = K) (hM : mk.length = K) (hW : Wk.length = K)
    (hnu : nu.length = K) :
    countTrue (pruneMaskQ (EpiQ K N alphaP Nk) thr) =
      (EpiQ K N alphaP Nk).countP (fun e => decide (thr ≤ e)) ∧
    (maskFilter (pruneMaskQ (EpiQ K N alphaP Nk) thr) alphaP).length =
      countTrue (pruneMaskQ (EpiQ K N alphaP Nk) thr) ∧
    (maskFilter (pruneMaskQ (EpiQ K N alphaP Nk) thr) alpha).length =
      countTrue (pruneMaskQ (EpiQ K N alphaP Nk) thr) ∧
    (maskFilter (pruneMaskQ (EpiQ K N alphaP Nk) thr) beta).length =
      countTrue (pruneMaskQ (EpiQ K N alphaP Nk) thr) ∧
    (maskFilter (pruneMaskQ (EpiQ K N alphaP Nk) thr) mk).length =
      countTrue (pruneMaskQ (EpiQ K N alphaP Nk) thr) ∧
    (maskFilter (pruneMaskQ (EpiQ K N alphaP Nk) thr) Wk).length =
      countTrue (pruneMaskQ (EpiQ K N alphaP Nk) thr) ∧
    (maskFilter (pruneMaskQ (EpiQ K N alphaP Nk) thr) nu).length =
      countTrue (pruneMaskQ (EpiQ K N alphaP Nk) thr) := by
  have hlen : (EpiQ K N alphaP Nk).length = K := by
    simp [EpiQ, hP, hN]
  have hmask : (pruneMaskQ (EpiQ K N alphaP Nk) thr).length = K := by
    simp [pruneMaskQ, hlen]
  exact ⟨countTrue_pruneMaskQ _ _,
    maskFilter_length _ _ (hmask.trans hP.symm),
    maskFilter_length _ _ (hmask.trans hA.symm),
    maskFilter_length _ _ (hmask.trans hB.symm),
    maskFilter_length _ _ (hmask.trans hM.symm),
    maskFilter_length _ _ (hmask.trans hW.symm),
    maskFilter_length _ _ (hmask.trans hnu.symm)⟩

/-- Witness for c6_pruning_invariant with two components. -/
theorem c6_pruning_invariant_witness :
    countTrue (pruneMaskQ (EpiQ 2 1 [1, 1] [1, 0]) (1 / 2)) =
      (EpiQ 2 1 [1, 1] [1, 0]).countP (fun e => decide ((1 : ℚ) / 2 ≤ e)) ∧
    (maskFilter (pruneMaskQ (EpiQ 2 1 [1, 1] [1, 0]) (1 / 2)) [(1 : ℚ), 1]).length =
      countTrue (pruneMaskQ (EpiQ 2 1 [1, 1] [1, 0]) (1 / 2)) ∧
    (maskFilter (pruneMaskQ (EpiQ 2 1 [1, 1] [1, 0]) (1 / 2)) [(2 : ℚ), 1]).length =
      countTrue (pruneMaskQ (EpiQ 2 1 [1, 1] [1, 0]) (1 / 2)) ∧
    (maskFilter (pruneMaskQ (EpiQ 2 1 [1, 1] [1, 0]) (1 / 2)) [(2 : ℚ), 1]).length =
      countTrue (pruneMaskQ (EpiQ 2 1 [1, 1] [1, 0]) (1 / 2)) ∧
    (maskFilter (pruneMaskQ (EpiQ 2 1 [1, 1] [1, 0]) (1 / 2)) [[(0 : ℚ)], [0]]).length =
      countTrue (pruneMaskQ (EpiQ 2 1 [1, 1] [1, 0]) (1 / 2)) ∧
    (maskFilter (pruneMaskQ (EpiQ 2 1 [1, 1] [1, 0]) (1 / 2)) [[[(1 : ℚ)]], [[1]]]).length =
      countTrue (pruneMaskQ (EpiQ 2 1 [1, 1] [1, 0]) (1 / 2)) ∧
    (maskFilter (pruneMaskQ (EpiQ 2 1 [1, 1] [1, 0]) (1 / 2)) [(2 : ℚ), 1]).length =
      countTrue (pruneMaskQ (EpiQ 2 1 [1, 1] [1, 0]) (1 / 2)) :=
  c6_pruning_invariant 2 1 (1 / 2) [1, 1] [1, 0] [2, 1] [2, 1] [2, 1]
    [[0], [0]] [[[1]], [[1]]]
    (by simp) (by simp) (by simp) (by simp) (by simp) (by simp) (by simp)

/-! ## Responsibility normalization (claim C5) -/

theorem sum_map_div {α : Type} [Field α] (l : List α) (c : α) :
    (l.map (fun x => x / c)).sum = l.sum / c := by
  induction l with
  | nil => simp
  | cons h t ih => simp [ih, add_div]

/-- Claim C5, amended.  For any unnormalized log-responsibility matrix pho
and any strictly positive exponential (np.exp is one, and so is any exact
reading of it), every NONEMPTY row of the exponentiate-and-row-normalize
E step sums to 1 with all entries in the closed unit interval.  When
pruning has removed every component the rows of r are empty and sum to 0,
not 1 (see the counterexample), which is the one amendment to the claim. -/
theorem c5_rows_normalized_amended {α : Type} [LinearOrderedField α] (ex : α → α)
    (hex : ∀ x, 0 < ex x) (pho : List (List α)) :
    ∀ row ∈ EstepNormalize ex pho, row ≠ [] →
      row.sum = 1 ∧ ∀ y ∈ row, 0 ≤ y ∧ y ≤ 1 := by
  intro row hrow hne
  simp only [EstepNormalize, List.mem_map] at hrow
  obtain ⟨r0, _, rfl⟩ := hrow
  have hepos : ∀ x ∈ r0.map ex, 0 < x := by
    intro x hx
    simp only [List.mem_map] at hx
    obtain ⟨t, _, rfl⟩ := hx
    exact hex t
  have hspos : 0 < (r0.map ex).sum := by
    rcases hmap : r0.map ex with _ | ⟨x, xs⟩
    · exact absurd (by simp [hmap]) hne
    · have hx : 0 < x := hepos x (by rw [hmap]; exact List.mem_cons_self x xs)
      have hxs : 0 ≤ xs.sum := List.sum_nonneg (fun z hz =>
        (hepos z (by rw [hmap]; exact List.mem_cons_of_mem x hz)).le)
      rw [List.sum_cons]
      linarith
  refine ⟨?_, ?_⟩
  · rw [sum_map_div, div_self hspos.ne']
  · intro y hy
    simp only [List.mem_map] at hy
    obtain ⟨x, ⟨t, ht, rfl⟩, rfl⟩ := hy
    have hxm : ex t ∈ r0.map ex := List.mem_map_of_mem ex ht
    exact ⟨div_nonneg (hex t).le hspos.le,
      (div_le_one hspos).mpr
        (List.single_le_sum (fun z hz => (hepos z hz).le) (ex t) hxm)⟩

/-- Witness for c5_rows_normalized_amended: one sample, one component,
pho = [[0]], exponential constantly 1. -/
theorem c5_rows_normalized_amended_witness :
    ([1] : List ℚ).sum = 1 ∧ ∀ y ∈ ([1] : List ℚ), 0 ≤ y ∧ y ≤ 1 :=
  c5_rows_normalized_amended (fun _ => (1 : ℚ)) (fun _ => one_pos) [[0]] [1]
    (by norm_num [EstepNormalize]) (by simp)

/-! ## Pruning down to zero components (claims C10 and C5 counterexample) -/

theorem forLoop_one {σ : Type} (g : σ → σ) (s : σ) : forLoop g 1 s = g s := by
  rw [show (1 : ℕ) = 0 + 1 from rfl, forLoop, forLoop]

/-- Claim C10.  With reduce_components on and a prune threshold of 2
(which exceeds every possible E_pi), one fit round on two 1-dimensional
samples with a single component prunes K down to 0, leaves every K-indexed
array empty, and the rest of the round runs through on these empty arrays
with no error from the solver (the loop of lines 164-198 contains no raise
statement, and the model is a total function returning some result).
After pruning every K-indexed list is empty, so the result does not depend
on the numeric primitives; they are instantiated here with the identity
maps, detL, and 0 for np.pi. -/
theorem c10_prune_to_zero :
    gmmFitQ id id id id detL 0 [[0], [2]] 1 [0] [[1]] 1 true 2 1 [1] [[1], [1]] 1 =
      some ⟨[[], []], 0, [], [], [], [], []⟩ := by
  norm_num [gmmFitQ, forLoop_one, gmmRound, colSum, transposeL, EpiQ, pruneMaskQ,
    maskFilter, countTrue, EstepNormalize, zipWith3, mDiv, mScale, mAdd, vSub, vOuter,
    sumMats, quadForm, vDot, mVec]

/-- Claim C5, counterexample.  A fit call CAN produce a responsibility
matrix whose rows do not sum to 1: with reduce_components on and a prune
threshold of 2, pruning empties all K-indexed arrays mid-round, the E step
then produces an empty row for the single sample, and the stored r is
[[]], whose row sums to 0, not 1.  So the claim as stated over every fit
call fails; the amended theorem restricts it to nonempty rows. -/
theorem c5_empty_rows_counterexample :
    gmmFitQ id id id id detL 0 [[0]] 1 [0] [[1]] 1 true 2 1 [1] [[1]] 1 =
      some ⟨[[]], 0, [], [], [], [], []⟩ ∧
    ([] : List ℚ).sum = 0 ∧ (0 : ℚ) ≠ 1 := by
  refine ⟨?_, by simp, by norm_num⟩
  norm_num [gmmFitQ, forLoop_one, gmmRound, colSum, transposeL, EpiQ, pruneMaskQ,
    maskFilter, countTrue, EstepNormalize, zipWith3, mDiv, mScale, mAdd, vSub, vOuter,
    sumMats, quadForm, vDot, mVec]

/-! ## Non-convergence handling (claim C8) -/

/-- Claim C8, counterexample.  The claim says non-convergence never
raises, for every input.  But a VariationalGauss1D.fit call whose
iteration budget is 0 exhausts its max_iter (vacuously never meeting the
threshold) and then fails at self.a = a_N (line 81): the loop local a_N
was never assigned, so Python raises instead of exiting normally; the
model returns none for the stored state, after 0 iterations with no
convergence. -/
theorem c8_zero_budget_counterexample :
    (g1Fit 0 0 0 0 (1 / 100) 0 [1] 1).1 = none ∧
    (g1Fit 0 0 0 0 (1 / 100) 0 [1] 1).2 = (0, false) := by
  constructor <;> simp [g1Fit, breakLoop, g1Store, g1Start, g1Init]

/-- Claim C8, amended.  Provided the iteration budget is at least 1:
a VariationalGauss1D.fit call that never meets its convergence threshold
exits normally after exactly max_iter iterations storing the last computed
iterate; VariationalGaussianMixture.fit performs exactly n_iter rounds
with no early-stop check before storing its final state; and a
VariationalLogisticRegression.fit call that never meets its threshold
exits normally storing the last computed xi.  (With a zero budget the
first two instead raise on a never-assigned loop local at the final
stores, see the counterexample.) -/
theorem c8_nonconvergence_amended :
    (∀ (a0 b0 mu0 lam0 thr initTau : ℚ) (X : List ℚ) (maxIter : ℕ),
      1 ≤ maxIter →
      (∀ k < maxIter, g1ConvCheck thr
          ((g1Body a0 b0 mu0 lam0 X)^[k] (g1Start mu0 lam0 X initTau))
          (g1Body a0 b0 mu0 lam0 X
            ((g1Body a0 b0 mu0 lam0 X)^[k] (g1Start mu0 lam0 X initTau))) = false) →
      g1Fit a0 b0 mu0 lam0 thr maxIter X initTau =
        (g1Store ((g1Body a0 b0 mu0 lam0 X)^[maxIter] (g1Start mu0 lam0 X initTau)),
          maxIter, false) ∧
      g1Store ((g1Body a0 b0 mu0 lam0 X)^[maxIter] (g1Start mu0 lam0 X initTau)) ≠ none) ∧
    (∀ (dg lg ex : ℚ → ℚ) (inv : List (List ℚ) → List (List ℚ))
      (det : List (List ℚ) → ℚ) (piQ : ℚ) (X : List (List ℚ)) (beta0 : ℚ)
      (m0 : List ℚ) (Winv : List (List ℚ)) (nu0 : ℚ) (reduceC : Bool) (thr : ℚ)
      (K0 : ℕ) (alpha0 : List ℚ) (Ez0 : List (List ℚ)) (nIter : ℕ),
      1 ≤ nIter →
      gmmFitQ dg lg ex inv det piQ X beta0 m0 Winv nu0 reduceC thr K0 alpha0 Ez0 nIter =
        some
          { r := ((gmmRound dg lg ex inv det piQ X beta0 m0 Winv nu0 reduceC thr)^[nIter]
              ⟨K0, alpha0, Ez0, [], [], [], [], []⟩).Ez
            K := ((gmmRound dg lg ex inv det piQ X beta0 m0 Winv nu0 reduceC thr)^[nIter]
              ⟨K0, alpha0, Ez0, [], [], [], [], []⟩).K
            alpha := ((gmmRound dg lg ex inv det piQ X beta0 m0 Winv nu0 reduceC thr)^[nIter]
              ⟨K0, alpha0, Ez0, [], [], [], [], []⟩).alpha
            beta := ((gmmRound dg lg ex inv det piQ X beta0 m0 Winv nu0 reduceC thr)^[nIter]
              ⟨K0, alpha0, Ez0, [], [], [], [], []⟩).beta
            nu := ((gmmRound dg lg ex inv det piQ X beta0 m0 Winv nu0 reduceC thr)^[nIter]
              ⟨K0, alpha0, Ez0, [], [], [], [], []⟩).nu
            m_k := ((gmmRound dg lg ex inv det piQ X beta0 m0 Winv nu0 reduceC thr)^[nIter]
              ⟨K0, alpha0, Ez0, [], [], [], [], []⟩).m_k
            W_k := ((gmmRound dg lg ex inv det piQ X beta0 m0 Winv nu0 reduceC thr)^[nIter]
              ⟨K0, alpha0, Ez0, [], [], [], [], []⟩).W_k }) ∧
    ∀ (newXi : List ℚ → List ℚ) (thr : ℚ) (maxIter : ℕ) (v randXi : List ℚ)
      (N : ℕ) (a0 b0 : ℚ), v.length = N →
      (∀ k < maxIter,
        logConvCheck thr (newXi^[k] v) (newXi (newXi^[k] v)) = false) →
      logisticFit newXi thr maxIter (some v) randXi N a0 b0 =
        ⟨none, some (a0, b0), some (newXi^[maxIter] v), maxIter⟩ := by
  refine ⟨?_, ?_, ?_⟩
  · intro a0 b0 mu0 lam0 thr initTau X maxIter hiter hnc
    have hbl := breakLoop_of_never (g1Body a0 b0 mu0 lam0 X) (g1ConvCheck thr)
      maxIter (g1Start mu0 lam0 X initTau) hnc
    refine ⟨by simp only [g1Fit, hbl], ?_⟩
    obtain ⟨j, rfl⟩ : ∃ j, maxIter = j + 1 := ⟨maxIter - 1, by omega⟩
    rw [Function.iterate_succ_apply']
    simp [g1Body, g1Step, g1Store]
  · intro dg lg ex inv det piQ X beta0 m0 Winv nu0 reduceC thr K0 alpha0 Ez0 nIter h
    have h0 : ¬nIter = 0 := by omega
    simp only [gmmFitQ, if_neg h0, forLoop_eq_iterate]
  · intro newXi thr maxIter v randXi N a0 b0 hv hnc
    have hbl := breakLoop_of_never newXi (logConvCheck thr) maxIter v hnc
    simp [logisticFit, hv, hbl]

/-- Witness for c8_nonconvergence_amended: threshold 0 is never met
(a sum of squares is never below 0), budgets of one iteration. -/
theorem c8_nonconvergence_amended_witness :
    (g1Fit 0 0 0 0 0 1 [1] 1 =
        (g1Store ((g1Body 0 0 0 0 [1])^[1] (g1Start 0 0 [1] 1)), 1, false) ∧
      g1Store ((g1Body 0 0 0 0 [1])^[1] (g1Start 0 0 [1] 1)) ≠ none) ∧
    (gmmFitQ id id id id detL 0 [[0]] 1 [0] [[1]] 1 false (1 / 1000) 1 [1] [[1]] 1 =
      some
        { r := ((gmmRound id id id id detL 0 [[0]] 1 [0] [[1]] 1 false (1 / 1000))^[1]
            ⟨1, [1], [[1]], [], [], [], [], []⟩).Ez
          K := ((gmmRound id id id id detL 0 [[0]] 1 [0] [[1]] 1 false (1 / 1000))^[1]
            ⟨1, [1], [[1]], [], [], [], [], []⟩).K
          alpha := ((gmmRound id id id id detL 0 [[0]] 1 [0] [[1]] 1 false (1 / 1000))^[1]
            ⟨1, [1], [[1]], [], [], [], [], []⟩).alpha
          beta := ((gmmRound id id id id detL 0 [[0]] 1 [0] [[1]] 1 false (1 / 1000))^[1]
            ⟨1, [1], [[1]], [], [], [], [], []⟩).beta
          nu := ((gmmRound id id id id detL 0 [[0]] 1 [0] [[1]] 1 false (1 / 1000))^[1]
            ⟨1, [1], [[1]], [], [], [], [], []⟩).nu
          m_k := ((gmmRound id id id id detL 0 [[0]] 1 [0] [[1]] 1 false (1 / 1000))^[1]
            ⟨1, [1], [[1]], [], [], [], [], []⟩).m_k
          W_k := ((gmmRound id id id id detL 0 [[0]] 1 [0] [[1]] 1 false (1 / 1000))^[1]
            ⟨1, [1], [[1]], [], [], [], [], []⟩).W_k }) ∧
    logisticFit id 0 1 (some [0]) [] 1 0 0 = ⟨none, some (0, 0), some (id^[1] [0]), 1⟩ :=
  ⟨c8_nonconvergence_amended.1 0 0 0 0 0 1 [1] 1 (by norm_num)
      (by
        intro k hk
        have hk0 : k = 0 := by omega
        subst hk0
        rw [g1ConvCheck]
        apply decide_eq_false
        push_neg
        norm_num
        positivity),
   c8_nonconvergence_amended.2.1 id id id id detL 0 [[0]] 1 [0] [[1]] 1 false
      (1 / 1000) 1 [1] [[1]] 1 (by norm_num),
   c8_nonconvergence_amended.2.2 id 0 1 [0] [] 1 0 0 (by simp)
      (by
        intro k hk
        have hk0 : k = 0 := by omega
        subst hk0
        rw [logConvCheck]
        apply decide_eq_false
        push_neg
        norm_num [logMeanSq])⟩

/-! ## Normal-Gamma positivity invariant (claim C9) -/

theorem sumsq_identity (X : List ℚ) (c : ℚ) :
    (X.map (fun x => x ^ 2)).sum - 2 * c * X.sum + (X.length : ℚ) * c ^ 2 =
      (X.map (fun x => (x - c) ^ 2)).sum := by
  induction X with
  | nil => simp
  | cons h t ih =>
    simp only [List.map_cons, List.sum_cons, List.length_cons]
    push_cast
    linear_combination ih

theorem g1Body_pos (a0 b0 mu0 lam0 : ℚ) (X : List ℚ) (s : G1State)
    (ha : 0 ≤ a0) (hb : 0 ≤ b0) (hl : 0 ≤ lam0) (hX : X ≠ [])
    (htau : 0 < s.Etau) (hlam : 0 < s.lamN) :
    g1Pos (g1Body a0 b0 mu0 lam0 X s) := by
  have hN : (1 : ℚ) ≤ (X.length : ℚ) := by
    have h1 : 0 < X.length := List.length_pos.mpr hX
    exact_mod_cast h1
  have hden : 0 < (s.lamN + (X.length : ℚ)) * s.Etau := mul_pos (by linarith) htau
  have hδ : 0 < 1 / ((s.lamN + (X.length : ℚ)) * s.Etau) := by positivity
  have haN : 0 < a0 + ((X.length : ℚ) + 1) / 2 := by linarith
  have hsq : 0 ≤ (X.map (fun x => (x - s.muN) ^ 2)).sum := by
    apply List.sum_nonneg
    intro z hz
    simp only [List.mem_map] at hz
    obtain ⟨x, _, rfl⟩ := hz
    positivity
  have hkey : (X.map (fun x => x ^ 2)).sum - 2 * s.muN * X.sum +
      (X.length : ℚ) * (s.muN ^ 2 + 1 / ((s.lamN + (X.length : ℚ)) * s.Etau)) =
      (X.map (fun x => (x - s.muN) ^ 2)).sum +
        (X.length : ℚ) * (1 / ((s.lamN + (X.length : ℚ)) * s.Etau)) := by
    linear_combination sumsq_identity X s.muN
  have hlam0term : 0 ≤ lam0 * (s.muN ^ 2 + 1 / ((s.lamN + (X.length : ℚ)) * s.Etau) -
      2 * s.muN * mu0 + mu0 ^ 2) := by
    apply mul_nonneg hl
    nlinarith [sq_nonneg (s.muN - mu0), hδ]
  have hbN : 0 < b0 + 1 / 2 *
      ((X.map (fun x => x ^ 2)).sum - 2 * s.muN * X.sum +
        (X.length : ℚ) * (s.muN ^ 2 + 1 / ((s.lamN + (X.length : ℚ)) * s.Etau)) +
        lam0 * (s.muN ^ 2 + 1 / ((s.lamN + (X.length : ℚ)) * s.Etau) -
          2 * s.muN * mu0 + mu0 ^ 2)) := by
    nlinarith [mul_nonneg (by linarith : (0 : ℚ) ≤ (X.length : ℚ) - 1) hδ.le]
  refine ⟨?_, ?_, ?_, ?_⟩
  · exact div_pos haN hbN
  · exact mul_pos (by linarith : (0 : ℚ) < lam0 + (X.length : ℚ)) (div_pos haN hbN)
  · intro a haeq
    simp only [g1Body, g1Step, Option.some.injEq] at haeq
    linarith [haeq ▸ haN]
  · intro b hbeq
    simp only [g1Body, g1Step, Option.some.injEq] at hbeq
    linarith [hbeq ▸ hbN]

theorem breakLoop_inv {σ : Type} (g : σ → σ) (c : σ → σ → Bool) (P : σ → Prop)
    (hg : ∀ s, P s → P (g s)) :
    ∀ (n : ℕ) (s : σ), P s → P (breakLoop g c n s).1 := by
  intro n
  induction n with
  | zero => intro s hs; exact hs
  | succ m ih =>
    intro s hs
    rw [breakLoop]
    cases hcv : c s (g s)
    · simpa [hcv] using ih (g s) (hg s hs)
    · simpa [hcv] using hg s hs

theorem iterate_inv {σ : Type} (g : σ → σ) (P : σ → Prop)
    (hg : ∀ s, P s → P (g s)) :
    ∀ (k : ℕ) (s : σ), P s → P (g^[k] s) := by
  intro k
  induction k with
  | zero => intro s hs; simpa using hs
  | succ m ih =>
    intro s hs
    rw [Function.iterate_succ_apply]
    exact ih (g s) (hg s hs)

/-- Claim C9, amended.  For nonnegative prior hyperparameters a, b, lambda
and a positive initial precision guess, after every update of the
Normal-Gamma state during a fit call on a non-empty observation array the
parameters are positive (the iterates all satisfy g1Pos), and whatever fit
stores satisfies lambda > 0, a > 0, b > 0.  (For a negative prior a the
code stores a negative shape parameter, see the counterexample, which is
the one restriction added to the claim.) -/
theorem c9_positivity_amended (a0 b0 mu0 lam0 thr initTau : ℚ) (X : List ℚ)
    (maxIter : ℕ) (ha : 0 ≤ a0) (hb : 0 ≤ b0) (hl : 0 ≤ lam0) (hX : X ≠ [])
    (htau : 0 < initTau) :
    (∀ k, g1Pos ((g1Body a0 b0 mu0 lam0 X)^[k] (g1Start mu0 lam0 X initTau))) ∧
    ∀ mu lam a b,
      (g1Fit a0 b0 mu0 lam0 thr maxIter X initTau).1 = some (mu, lam, a, b) →
      0 < lam ∧ 0 < a ∧ 0 < b := by
  have hstep : ∀ s : G1State, g1Pos s → g1Pos (g1Body a0 b0 mu0 lam0 X s) :=
    fun s hs => g1Body_pos a0 b0 mu0 lam0 X s ha hb hl hX hs.1 hs.2.1
  have hN : (1 : ℚ) ≤ (X.length : ℚ) := by
    have h1 : 0 < X.length := List.length_pos.mpr hX
    exact_mod_cast h1
  have hs0 : g1Pos (g1Start mu0 lam0 X initTau) := by
    refine ⟨htau, ?_, ?_, ?_⟩
    · show 0 < (lam0 + (X.length : ℚ)) * initTau
      exact mul_pos (by linarith) htau
    · intro a haeq
      simp [g1Start, g1Init] at haeq
    · intro b hbeq
      simp [g1Start, g1Init] at hbeq
  constructor
  · intro k
    exact iterate_inv _ _ hstep k _ hs0
  · intro mu lam a b hfit
    have hres : g1Pos (breakLoop (g1Body a0 b0 mu0 lam0 X) (g1ConvCheck thr)
        maxIter (g1Start mu0 lam0 X initTau)).1 :=
      breakLoop_inv _ _ g1Pos hstep maxIter _ hs0
    simp only [g1Fit] at hfit
    rcases hres with ⟨-, hlamN, haN, hbN⟩
    rcases haeq : (breakLoop (g1Body a0 b0 mu0 lam0 X) (g1ConvCheck thr)
        maxIter (g1Start mu0 lam0 X initTau)).1.aN with _ | a'
    · simp [g1Store, haeq] at hfit
    rcases hbeq : (breakLoop (g1Body a0 b0 mu0 lam0 X) (g1ConvCheck thr)
        maxIter (g1Start mu0 lam0 X initTau)).1.bN with _ | b'
    · simp [g1Store, haeq, hbeq] at hfit
    simp only [g1Store, haeq, hbeq, Option.some.injEq, Prod.mk.injEq] at hfit
    obtain ⟨-, hlam, haa, hbb⟩ := hfit
    exact ⟨hlam ▸ hlamN, haa ▸ haN a' haeq, hbb ▸ hbN b' hbeq⟩

/-- Witness for c9_positivity_amended on X = [1, 2] with diffuse priors,
init_tau = 1 and a budget of one iteration: fit stores
(mu, lamda, a, b) = (3/2, 6, 3/2, 1/2) and lambda, a, b are positive. -/
theorem c9_positivity_amended_witness : 0 < (6 : ℚ) ∧ 0 < (3 / 2 : ℚ) ∧ 0 < (1 / 2 : ℚ) := by
  have hstart : g1Start 0 0 [1, 2] 1 = ⟨3 / 2, 2, 1, none, none⟩ := by
    simp only [g1Start, g1Init]
    norm_num
  have hb1 : g1Body 0 0 0 0 [1, 2] ⟨3 / 2, 2, 1, none, none⟩ =
      ⟨3 / 2, 6, 3, some (3 / 2), some (1 / 2)⟩ := by
    simp only [g1Body, g1Step]
    norm_num
  have hc1 : g1ConvCheck (1 / 100) ⟨3 / 2, 2, 1, none, none⟩
      ⟨3 / 2, 6, 3, some (3 / 2), some (1 / 2)⟩ = false := by
    rw [g1ConvCheck]
    apply decide_eq_false
    norm_num
  have hbl : breakLoop (g1Body 0 0 0 0 [1, 2]) (g1ConvCheck (1 / 100)) 1
      ⟨3 / 2, 2, 1, none, none⟩ =
      (⟨3 / 2, 6, 3, some (3 / 2), some (1 / 2)⟩, 1, false) := by
    rw [breakLoop_step_false _ _ 1 0 _ _ rfl hb1 hc1]
    simp [breakLoop]
  have hfit : (g1Fit 0 0 0 0 (1 / 100) 1 [1, 2] 1).1 = some (3 / 2, 6, 3 / 2, 1 / 2) := by
    simp only [g1Fit, hstart, hbl, g1Store]
  exact (c9_positivity_amended 0 0 0 0 (1 / 100) 1 [1, 2] 1 (le_refl 0) (le_refl 0)
    (le_refl 0) (by simp) one_pos).2 (3 / 2) 6 (3 / 2) (1 / 2) hfit

/-- Claim C9, counterexample.  The solver constructor accepts any prior;
with prior a = -10 and a single observation, one fit call stores
a = -10 + (1+1)/2 = -9 (and lambda = -36), so the claimed invariant
a, b, lambda > 0 after any update fails as stated. -/
theorem c9_negative_prior_counterexample :
    (g1Fit (-10) 0 0 0 (1 / 100) 1 [1] 1).1 = some (1, -36, -9, 1 / 4) ∧
    ¬(0 : ℚ) < -9 := by
  have hstart : g1Start 0 0 [1] 1 = ⟨1, 1, 1, none, none⟩ := by
    simp only [g1Start, g1Init]
    norm_num
  have hb1 : g1Body (-10) 0 0 0 [1] ⟨1, 1, 1, none, none⟩ =
      ⟨1, -36, -36, some (-9), some (1 / 4)⟩ := by
    simp only [g1Body, g1Step]
    norm_num
  have hc1 : g1ConvCheck (1 / 100) ⟨1, 1, 1, none, none⟩
      ⟨1, -36, -36, some (-9), some (1 / 4)⟩ = false := by
    rw [g1ConvCheck]
    apply decide_eq_false
    norm_num
  have hbl : breakLoop (g1Body (-10) 0 0 0 [1]) (g1ConvCheck (1 / 100)) 1
      ⟨1, 1, 1, none, none⟩ = (⟨1, -36, -36, some (-9), some (1 / 4)⟩, 1, false) := by
    rw [breakLoop_step_false _ _ 1 0 _ _ rfl hb1 hc1]
    simp [breakLoop]
  constructor
  · simp only [g1Fit, hstart, hbl, g1Store]
  · norm_num

/-! ## End-to-end 1-D scenario (claim C7) -/

/-- Claim C7.  Fitting X = [1,2,3,4,5] with diffuse priors
a = b = mu = lambda = 0, init_tau = 1, threshold 1e-2 and the default
budget of 1000 iterations terminates via the convergence break after 4
iterations, with stored posterior mean mu_N = 3 (the sample mean, here
exactly) and stored Gamma shape a_N = a_0 + (N+1)/2 = 3 exactly. -/
theorem c7_end_to_end_scenario :
    (g1Fit 0 0 0 0 (1 / 100) 1000 [1, 2, 3, 4, 5] 1).1.map
      (fun r => (r.1, r.2.2.1)) = some (3, 3) ∧
    (g1Fit 0 0 0 0 (1 / 100) 1000 [1, 2, 3, 4, 5] 1).2 = (4, true) := by
  have hstart : g1Start 0 0 [1, 2, 3, 4, 5] 1 = ⟨3, 5, 1, none, none⟩ := by
    simp only [g1Start, g1Init]
    norm_num
  have hb1 : g1Body 0 0 0 0 [1, 2, 3, 4, 5] ⟨3, 5, 1, none, none⟩ =
      ⟨3, 20 / 7, 4 / 7, some 3, some (21 / 4)⟩ := by
    simp only [g1Body, g1Step]
    norm_num
  have hc1 : g1ConvCheck (1 / 100) ⟨3, 5, 1, none, none⟩
      ⟨3, 20 / 7, 4 / 7, some 3, some (21 / 4)⟩ = false := by
    rw [g1ConvCheck]; apply decide_eq_false; norm_num
  have hb2 : g1Body 0 0 0 0 [1, 2, 3, 4, 5] ⟨3, 20 / 7, 4 / 7, some 3, some (21 / 4)⟩ =
      ⟨3, 440 / 163, 88 / 163, some 3, some (489 / 88)⟩ := by
    simp only [g1Body, g1Step]
    norm_num
  have hc2 : g1ConvCheck (1 / 100) ⟨3, 20 / 7, 4 / 7, some 3, some (21 / 4)⟩
      ⟨3, 440 / 163, 88 / 163, some 3, some (489 / 88)⟩ = false := by
    rw [g1ConvCheck]; apply decide_eq_false; norm_num
  have hb3 : g1Body 0 0 0 0 [1, 2, 3, 4, 5]
      ⟨3, 440 / 163, 88 / 163, some 3, some (489 / 88)⟩ =
      ⟨3, 220880 / 82483, 44176 / 82483, some 3, some (247449 / 44176)⟩ := by
    simp only [g1Body, g1Step]
    norm_num
  have hc3 : g1ConvCheck (1 / 100) ⟨3, 440 / 163, 88 / 163, some 3, some (489 / 88)⟩
      ⟨3, 220880 / 82483, 44176 / 82483, some 3, some (247449 / 44176)⟩ = false := by
    rw [g1ConvCheck]; apply decide_eq_false; norm_num
  have hb4 : g1Body 0 0 0 0 [1, 2, 3, 4, 5]
      ⟨3, 220880 / 82483, 44176 / 82483, some 3, some (247449 / 44176)⟩ =
      ⟨3, 55952879840 / 20918775043, 11190575968 / 20918775043, some 3,
        some (62756325129 / 11190575968)⟩ := by
    simp only [g1Body, g1Step]
    norm_num
  have hc4 : g1ConvCheck (1 / 100)
      ⟨3, 220880 / 82483, 44176 / 82483, some 3, some (247449 / 44176)⟩
      ⟨3, 55952879840 / 20918775043, 11190575968 / 20918775043, some 3,
        some (62756325129 / 11190575968)⟩ = true := by
    rw [g1ConvCheck]; apply decide_eq_true; norm_num
  have hbl : breakLoop (g1Body 0 0 0 0 [1, 2, 3, 4, 5]) (g1ConvCheck (1 / 100)) 1000
      ⟨3, 5, 1, none, none⟩ =
      (⟨3, 55952879840 / 20918775043, 11190575968 / 20918775043, some 3,
        some (62756325129 / 11190575968)⟩, 4, true) := by
    rw [breakLoop_step_false _ _ 1000 999 _ _ (by norm_num) hb1 hc1,
      breakLoop_step_false _ _ 999 998 _ _ (by norm_num) hb2 hc2,
      breakLoop_step_false _ _ 998 997 _ _ (by norm_num) hb3 hc3,
      breakLoop_step_true _ _ 997 996 _ _ (by norm_num) hb4 hc4]
  constructor
  · simp only [g1Fit, hstart, hbl, g1Store]
    rfl
  · simp only [g1Fit, hstart, hbl]

/-! ## The Student-t density bug (claim C1) and the aliasing bug (claim C2) -/

theorem detL_one : detL [[(1 : ℝ)]] = 1 := by
  have h1 : List.length [[(1 : ℝ)]] = 0 + 1 := by norm_num
  rw [detL, h1, detAux]
  norm_num [List.range_succ, detAux]

/-- Claim C1, code bug.  The per-component density computed inside
prob_density does NOT equal the standard multivariate Student-t closed
form: line 211 multiplies the kernel base (1 + mahalanobis/nu) by the
exponent -D/2 - nu/2 instead of raising it to that power (* where ** was
meant).  At the concrete fitted component D = 1, m = [0], L = [[1]],
nu = 1, evaluated at X = [[0]], the code returns -1/pi, a negative value
that cannot be a probability density (the docstring of prob_density calls
the result a probability), while the spec closed form gives 1/pi. -/
theorem c1_student_kernel_code_bug :
    (student [[0]] 1 [0] [[1]] 1).1 = [-(1 / Real.pi)] ∧
    studentSpecForm 1 [[1]] 1 0 = 1 / Real.pi ∧
    -(1 / Real.pi) ≠ 1 / Real.pi := by
  refine ⟨?_, ?_, ?_⟩
  · simp only [student, vSub, quadForm, vDot, mVec]
    norm_num [detL_one, Real.Gamma_one, Real.Gamma_one_half_eq, Real.one_rpow]
    rw [← Real.sqrt_eq_rpow]
    have hs : Real.sqrt Real.pi ≠ 0 := by positivity
    field_simp
  · simp only [studentSpecForm]
    norm_num [detL_one, Real.Gamma_one, Real.Gamma_one_half_eq, Real.one_rpow]
    rw [← Real.sqrt_eq_rpow]
    have hs : Real.sqrt Real.pi ≠ 0 := by positivity
    field_simp
  · intro he
    have h : 0 < 1 / Real.pi := by positivity
    linarith

/-- Claim C2, code bug.  prob_density does NOT leave the caller's array X
unchanged: line 209 executes X -= mu, an in-place numpy subtraction on the
caller's array.  On the fitted state K = 1, m_k = [[1]], calling
prob_density on X = [[1]] hands back X = [[0]]: the caller's array has
been shifted by the component mean, contradicting the claim that only the
solver's own instance state is mutated. -/
theorem c2_prob_density_mutates_X :
    (prob_density 1 [1] [1] [2] [[1]] [[[1]]] [[1]]).2 = [[0]] ∧
    ([[(0 : ℝ)]] : List (List ℝ)) ≠ [[1]] := by
  constructor
  · norm_num [prob_density, student, vSub, List.range_succ]
  · simp
